import Mathlib

set_option linter.unusedVariables false

/-!
A shallow embedding of the queuectl job-queue core (queuectl/repo.py,
queuectl/locking.py, queuectl/worker.py) and proofs about its repository
operations: job claiming, outcome recording, retry/backoff, the dead
letter queue, and worker registration.

Conventions of the embedding:
* timestamps and real-valued durations are rationals (seconds);
* Python `str` values carrying process output are lists of Unicode
  characters (Python strings are sequences of code points; slicing
  `s[:n]` keeps the first `n` code points);
* the database is a list of rows; `session.get` is a lookup by id and
  ORM mutation of a fetched row is an update of the row at that id;
* `random.uniform(0, 0.5*base)` is made an explicit `jitter` argument;
* config reads (`lock_timeout_s`, `max_backoff_s`) and `utcnow()` are
  explicit arguments;
* a raised error (duplicate primary key) is an `Except.error`.
-/

/-- Job lifecycle states (queuectl/models.py, `Job.state`). -/
inductive JState where
  | pending
  | processing
  | failed
  | completed
  | dead
deriving DecidableEq, Repr

/-- A row of the `jobs` table (queuectl/models.py, class `Job`). -/
structure Job where
  id : String
  command : String
  state : JState
  attempts : Int
  max_retries : Int
  backoff_base : Rat
  priority : Int
  run_at : Rat
  timeout_s : Option Int
  created_at : Rat
  updated_at : Rat
  locked_by : Option String
  locked_at : Option Rat
  last_exit_code : Option Int
  stdout : Option (List Char)
  stderr : Option (List Char)
  duration_ms : Option Int
deriving DecidableEq, Repr

/-- The `jobs` table. -/
abbrev Store := List Job

/-- `session.get(Job, job_id)`: the row with the given primary key. -/
def findJob : Store → String → Option Job
  | [], _ => none
  | j :: rest, jobId => if j.id = jobId then some j else findJob rest jobId

/-- ORM mutation of the fetched row: apply `f` to every row bearing the id. -/
def updateJob (st : Store) (jobId : String) (f : Job → Job) : Store :=
  st.map (fun j => if j.id = jobId then f j else j)

/-- `stdout[:8192] if stdout else None` (queuectl/repo.py lines 148-149 and
175-176): the empty string is falsy and stored as NULL; otherwise Python
slicing keeps the first 8192 code points. -/
def truncOut (s : List Char) : Option (List Char) :=
  if s = [] then none else some (s.take 8192)

/-- UTF-8 byte length of an output string (how the TEXT column is encoded). -/
def utf8Len (s : List Char) : Nat := (s.map Char.utf8Size).sum

/-- queuectl/locking.py `calculate_backoff_delay`:
`min(base ** attempts, max_backoff_s) + random.uniform(0, 0.5 * base)`,
with the random draw passed in as `jitter`. -/
def calculate_backoff_delay (attempts : Int) (base : Rat) (max_backoff_s : Rat)
    (jitter : Rat) : Rat :=
  min (base ^ attempts) max_backoff_s + jitter

/-- queuectl/locking.py `get_next_run_at`: `utcnow() + timedelta(seconds=delay)`. -/
def get_next_run_at (now : Rat) (attempts : Int) (base : Rat) (max_backoff_s : Rat)
    (jitter : Rat) : Rat :=
  now + calculate_backoff_delay attempts base max_backoff_s jitter

/-- The WHERE clause of the claim query (queuectl/repo.py lines 100-116):
state in (pending, failed), run_at <= now, and lock absent or expired
(`locked_by IS NULL` OR `locked_at IS NULL` OR `locked_at < now - lock_timeout_s`). -/
def eligible (lock_timeout_s now : Rat) (j : Job) : Bool :=
  (decide (j.state = JState.pending) || decide (j.state = JState.failed)) &&
  decide (j.run_at ≤ now) &&
  (decide (j.locked_by = none) ||
    match j.locked_at with
    | none => true
    | some t => decide (t < now - lock_timeout_s))

/-- The ORDER BY key of the claim query (queuectl/repo.py line 113):
`run_at ASC, priority DESC, created_at ASC` as a lexicographic key into a
linear order (priority negated to turn DESC into ASC). -/
def claimKey (j : Job) : Lex (Rat × Lex (Int × Rat)) :=
  toLex (j.run_at, toLex (-j.priority, j.created_at))

/-- The mutation a successful claim applies to the selected row
(queuectl/repo.py lines 120-124). -/
def lockRow (worker_id : String) (now : Rat) (j : Job) : Job :=
  { j with locked_by := some worker_id, locked_at := some now,
           state := JState.processing, updated_at := now }

/-- queuectl/repo.py `JobRepository.claim_job`: select the least eligible
row under the claim ordering (LIMIT 1), lock it and mark it processing;
return the claimed row (or none) together with the resulting table. -/
def claim_job (lock_timeout_s now : Rat) (worker_id : String) (st : Store) :
    Option Job × Store :=
  match (st.filter (eligible lock_timeout_s now)).argmin claimKey with
  | none => (none, st)
  | some j => (some (lockRow worker_id now j), updateJob st j.id (lockRow worker_id now))

/-- The mutation `mark_success` applies to the fetched row
(queuectl/repo.py lines 146-153). -/
def successRow (now : Rat) (exit_code : Int) (stdout stderr : List Char)
    (duration_ms : Int) (j : Job) : Job :=
  { j with state := JState.completed, last_exit_code := some exit_code,
           stdout := truncOut stdout, stderr := truncOut stderr,
           duration_ms := some duration_ms,
           locked_by := none, locked_at := none, updated_at := now }

/-- queuectl/repo.py `JobRepository.mark_success`: no-op when the id is
absent, otherwise record the outcome and clear the lock. -/
def mark_success (now : Rat) (job_id : String) (exit_code : Int)
    (stdout stderr : List Char) (duration_ms : Int) (st : Store) : Store :=
  match findJob st job_id with
  | none => st
  | some _ => updateJob st job_id (successRow now exit_code stdout stderr duration_ms)

/-- The mutation `mark_failure` applies to the fetched row
(queuectl/repo.py lines 173-191): increment attempts, record the outcome,
then either move to the DLQ (attempts >= max_retries) or schedule a retry
with backoff. -/
def failureRow (now max_backoff_s jitter : Rat) (exit_code : Int)
    (stdout stderr : List Char) (duration_ms : Int) (j : Job) : Job :=
  let a := j.attempts + 1
  let j1 : Job :=
    { j with attempts := a, last_exit_code := some exit_code,
             stdout := truncOut stdout, stderr := truncOut stderr,
             duration_ms := some duration_ms, updated_at := now }
  if a ≥ j.max_retries then
    { j1 with state := JState.dead, locked_by := none, locked_at := none }
  else
    { j1 with state := JState.failed,
              run_at := get_next_run_at now a j.backoff_base max_backoff_s jitter,
              locked_by := none, locked_at := none }

/-- queuectl/repo.py `JobRepository.mark_failure`: no-op when the id is
absent, otherwise apply `failureRow`. -/
def mark_failure (now max_backoff_s jitter : Rat) (job_id : String) (exit_code : Int)
    (stdout stderr : List Char) (duration_ms : Int) (st : Store) : Store :=
  match findJob st job_id with
  | none => st
  | some _ =>
      updateJob st job_id (failureRow now max_backoff_s jitter exit_code stdout stderr duration_ms)

/-- The mutation `retry_dlq_job` applies to the fetched dead row
(queuectl/repo.py lines 261-266). -/
def retryRow (now : Rat) (j : Job) : Job :=
  { j with state := JState.pending, attempts := 0, run_at := now,
           locked_by := none, locked_at := none, updated_at := now }

/-- queuectl/repo.py `JobRepository.retry_dlq_job`: false when the id is
absent or the row is not dead; otherwise reset the row to pending and
return true. -/
def retry_dlq_job (now : Rat) (job_id : String) (st : Store) : Bool × Store :=
  match findJob st job_id with
  | none => (false, st)
  | some j =>
      if j.state = JState.dead then (true, updateJob st job_id (retryRow now))
      else (false, st)

/-- queuectl/repo.py `JobRepository.create_job`: raise on a duplicate id,
otherwise insert a fresh pending row.  `cfg_max_retries` / `cfg_backoff_base`
are the config snapshot used when the caller passes no override; `run_at`
defaults to `now`. -/
def create_job (now : Rat) (cfg_max_retries : Int) (cfg_backoff_base : Rat)
    (job_id command : String) (priority : Int) (run_at : Option Rat)
    (timeout_s : Option Int) (max_retries : Option Int) (backoff_base : Option Rat)
    (st : Store) : Except String Job × Store :=
  if (findJob st job_id).isSome then
    (Except.error ("Job with ID '" ++ job_id ++ "' already exists"), st)
  else
    let job : Job :=
      { id := job_id, command := command, state := JState.pending, attempts := 0,
        max_retries := max_retries.getD cfg_max_retries,
        backoff_base := backoff_base.getD cfg_backoff_base,
        priority := priority, run_at := run_at.getD now, timeout_s := timeout_s,
        created_at := now, updated_at := now,
        locked_by := none, locked_at := none,
        last_exit_code := none, stdout := none, stderr := none, duration_ms := none }
    (Except.ok job, st ++ [job])

/-- A row of the `workers` table (queuectl/models.py, class `Worker`). -/
structure WorkerRow where
  id : String
  started_at : Rat
  last_heartbeat : Rat
  status : String
deriving DecidableEq, Repr

/-- queuectl/repo.py `WorkerRepository.register_worker`: `session.add` +
commit performs a plain INSERT, so a row whose primary key already exists
violates the UNIQUE constraint and the commit raises. -/
def register_worker (now : Rat) (worker_id : String) (ws : List WorkerRow) :
    Except String (List WorkerRow) :=
  if (ws.find? (fun w => w.id == worker_id)).isSome then
    Except.error "UNIQUE constraint failed: workers.id"
  else
    Except.ok (ws ++ [{ id := worker_id, started_at := now, last_heartbeat := now,
                        status := "active" }])

/-- The executor's structured result (queuectl/executor.py). -/
structure ExecResult where
  exit_code : Int
  stdout : List Char
  stderr : List Char
  duration_ms : Int

/-- queuectl/worker.py `Worker._process_job` (lines 135-156), outcome
recording only: call `mark_success` exactly when the exit code is 0,
otherwise `mark_failure`. -/
def process_job_record (now max_backoff_s jitter : Rat) (job_id : String)
    (r : ExecResult) (st : Store) : Store :=
  if r.exit_code = 0 then
    mark_success now job_id r.exit_code r.stdout r.stderr r.duration_ms st
  else
    mark_failure now max_backoff_s jitter job_id r.exit_code r.stdout r.stderr
      r.duration_ms st

/-- The lock invariant of the spec's data model section: a row is
processing iff both lock fields are set, and any non-processing row has
both lock fields NULL. -/
def lockInv (j : Job) : Prop :=
  (j.state = JState.processing ↔ (j.locked_by ≠ none ∧ j.locked_at ≠ none)) ∧
  (j.state ≠ JState.processing → (j.locked_by = none ∧ j.locked_at = none))

instance (j : Job) : Decidable (lockInv j) := by unfold lockInv; infer_instance

/-- The lock invariant over a whole table. -/
def storeLockInv (st : Store) : Prop := ∀ j ∈ st, lockInv j

instance (st : Store) : Decidable (storeLockInv st) :=
  inferInstanceAs (Decidable (∀ j ∈ (st : List Job), lockInv j))

/-- The attempts invariant of the spec's data model section:
`0 ≤ attempts ≤ max_retries`, and a dead row has exhausted its budget. -/
def attemptsInv (j : Job) : Prop :=
  0 ≤ j.attempts ∧ j.attempts ≤ j.max_retries ∧
  (j.state = JState.dead → j.attempts = j.max_retries)

instance (j : Job) : Decidable (attemptsInv j) := by unfold attemptsInv; infer_instance

/-- The attempts invariant over a whole table. -/
def storeAttemptsInv (st : Store) : Prop := ∀ j ∈ st, attemptsInv j

instance (st : Store) : Decidable (storeAttemptsInv st) :=
  inferInstanceAs (Decidable (∀ j ∈ (st : List Job), attemptsInv j))

/-- A claimed (processing) job used as the concrete row of witnesses and
counterexamples about outcome recording. -/
def procJob : Job :=
  { id := "j", command := "echo hi", state := JState.processing, attempts := 0,
    max_retries := 3, backoff_base := 2, priority := 0, run_at := 0,
    timeout_s := none, created_at := 0, updated_at := 0,
    locked_by := some "w", locked_at := some 0,
    last_exit_code := none, stdout := none, stderr := none, duration_ms := none }

/-- A pending job used as the concrete row of invariant witnesses. -/
def pendJob : Job :=
  { id := "p", command := "echo hi", state := JState.pending, attempts := 0,
    max_retries := 3, backoff_base := 2, priority := 0, run_at := 0,
    timeout_s := none, created_at := 0, updated_at := 0,
    locked_by := none, locked_at := none,
    last_exit_code := none, stdout := none, stderr := none, duration_ms := none }

/-- A dead job that has exhausted its retry budget (`attempts = max_retries = 1`). -/
def deadJob : Job :=
  { id := "d", command := "exit 1", state := JState.dead, attempts := 1,
    max_retries := 1, backoff_base := 2, priority := 0, run_at := 0,
    timeout_s := none, created_at := 0, updated_at := 0,
    locked_by := none, locked_at := none,
    last_exit_code := some 1, stdout := none, stderr := none, duration_ms := some 5 }

/-- An output of 2049 four-byte characters: 2049 code points, 8196 UTF-8 bytes. -/
def wideOut : List Char := List.replicate 2049 '𝄞'

/-- An output of 8193 one-byte characters, one over the truncation limit. -/
def longOut : List Char := List.replicate 8193 'a'

/-- A registered worker row used by the registration counterexample. -/
def regWorker : WorkerRow :=
  { id := "w1", started_at := 0, last_heartbeat := 0, status := "active" }

theorem findJob_eq_some {st : Store} {id : String} {j : Job}
    (h : findJob st id = some j) : j ∈ st ∧ j.id = id := by
  induction st with
  | nil => simp [findJob] at h
  | cons k rest ih =>
    by_cases hk : k.id = id
    · simp [findJob, hk] at h
      subst h
      exact ⟨List.mem_cons_self _ _, hk⟩
    · simp [findJob, hk] at h
      rcases ih h with ⟨hm, hid⟩
      exact ⟨List.mem_cons_of_mem _ hm, hid⟩

theorem findJob_updateJob (st : Store) (id : String) (f : Job → Job)
    (hf : ∀ k, (f k).id = k.id) :
    findJob (updateJob st id f) id = (findJob st id).map f := by
  induction st with
  | nil => rfl
  | cons k rest ih =>
    by_cases hk : k.id = id
    · simp [updateJob, findJob, hk, hf k]
    · simp only [updateJob, List.map_cons, if_neg hk] at *
      simp [findJob, hk, ih]

theorem mem_updateJob {k : Job} {st : Store} {id : String} {f : Job → Job}
    (hk : k ∈ updateJob st id f) : (∃ j ∈ st, k = f j) ∨ k ∈ st := by
  unfold updateJob at hk
  rcases List.mem_map.mp hk with ⟨j, hj, hkj⟩
  by_cases h : j.id = id
  · rw [if_pos h] at hkj
    exact Or.inl ⟨j, hj, hkj.symm⟩
  · rw [if_neg h] at hkj
    exact Or.inr (hkj ▸ hj)

theorem lockRow_id (w : String) (now : Rat) (k : Job) : (lockRow w now k).id = k.id := rfl

theorem successRow_id (now : Rat) (c : Int) (out err : List Char) (d : Int) (k : Job) :
    (successRow now c out err d k).id = k.id := rfl

theorem failureRow_id (now mb jit : Rat) (c : Int) (out err : List Char) (d : Int)
    (k : Job) : (failureRow now mb jit c out err d k).id = k.id := by
  unfold failureRow
  simp only []
  split <;> rfl

theorem retryRow_id (now : Rat) (k : Job) : (retryRow now k).id = k.id := rfl

theorem retry_dlq_job_of_none {now : Rat} {id : String} {st : Store}
    (h : findJob st id = none) : retry_dlq_job now id st = (false, st) := by
  unfold retry_dlq_job
  rw [h]

theorem retry_dlq_job_of_some {now : Rat} {id : String} {st : Store} {j : Job}
    (h : findJob st id = some j) :
    retry_dlq_job now id st =
      if j.state = JState.dead then (true, updateJob st id (retryRow now))
      else (false, st) := by
  unfold retry_dlq_job
  rw [h]

theorem mark_success_of_none {now : Rat} {id : String} {c : Int} {out err : List Char}
    {d : Int} {st : Store} (h : findJob st id = none) :
    mark_success now id c out err d st = st := by
  unfold mark_success
  rw [h]

theorem mark_success_of_some {now : Rat} {id : String} {c : Int} {out err : List Char}
    {d : Int} {st : Store} {j : Job} (h : findJob st id = some j) :
    mark_success now id c out err d st = updateJob st id (successRow now c out err d) := by
  unfold mark_success
  rw [h]

theorem mark_failure_of_none {now mb jit : Rat} {id : String} {c : Int}
    {out err : List Char} {d : Int} {st : Store} (h : findJob st id = none) :
    mark_failure now mb jit id c out err d st = st := by
  unfold mark_failure
  rw [h]

theorem mark_failure_of_some {now mb jit : Rat} {id : String} {c : Int}
    {out err : List Char} {d : Int} {st : Store} {j : Job} (h : findJob st id = some j) :
    mark_failure now mb jit id c out err d st =
      updateJob st id (failureRow now mb jit c out err d) := by
  unfold mark_failure
  rw [h]

theorem lockInv_lockRow (w : String) (now : Rat) (k : Job) : lockInv (lockRow w now k) := by
  simp [lockInv, lockRow]

theorem lockInv_successRow (now : Rat) (c : Int) (out err : List Char) (d : Int)
    (k : Job) : lockInv (successRow now c out err d k) := by
  simp [lockInv, successRow]

theorem lockInv_failureRow (now mb jit : Rat) (c : Int) (out err : List Char) (d : Int)
    (k : Job) : lockInv (failureRow now mb jit c out err d k) := by
  unfold failureRow
  simp only []
  split <;> simp [lockInv]

theorem lockInv_retryRow (now : Rat) (k : Job) : lockInv (retryRow now k) := by
  simp [lockInv, retryRow]

/-- Claim C5: `calculate_backoff_delay` equals the capped exponential plus the
jitter draw; for `attempts ≥ 0`, `base ≥ 1.1`, `max_backoff > 0` and a jitter
in `[0, 0.5*base]` the delay is positive, at most `max_backoff + 0.5*base`,
and at least `base^attempts` whenever the exponential is below the cap. -/
theorem backoff_delay_bounds (attempts : Int) (base max_backoff jitter : Rat)
    (hA : 0 ≤ attempts) (hB : 11/10 ≤ base) (hM : 0 < max_backoff)
    (hJ0 : 0 ≤ jitter) (hJ1 : jitter ≤ base / 2) :
    calculate_backoff_delay attempts base max_backoff jitter =
      min (base ^ attempts) max_backoff + jitter ∧
    0 < calculate_backoff_delay attempts base max_backoff jitter ∧
    calculate_backoff_delay attempts base max_backoff jitter ≤ max_backoff + base / 2 ∧
    (base ^ attempts ≤ max_backoff →
      base ^ attempts ≤ calculate_backoff_delay attempts base max_backoff jitter) := by
  have hbpos : (0:Rat) < base := lt_of_lt_of_le (by norm_num) hB
  have hpow : (0:Rat) < base ^ attempts := zpow_pos hbpos _
  refine ⟨rfl, ?_, ?_, ?_⟩
  · unfold calculate_backoff_delay
    have hmin : (0:Rat) < min (base ^ attempts) max_backoff := lt_min hpow hM
    linarith
  · unfold calculate_backoff_delay
    have hmin := min_le_right (base ^ attempts) max_backoff
    linarith
  · intro h
    unfold calculate_backoff_delay
    rw [min_eq_left h]
    linarith

/-- Witness for C5 at `attempts = 2`, `base = 2`, `max_backoff = 3600`,
`jitter = 1/2`. -/
theorem backoff_delay_bounds_witness :
    ((0:Int) ≤ 2 ∧ (11:Rat)/10 ≤ 2 ∧ (0:Rat) < 3600 ∧ (0:Rat) ≤ 1/2 ∧
      (1:Rat)/2 ≤ 2 / 2) ∧
    (calculate_backoff_delay 2 2 3600 (1/2) =
      min ((2:Rat) ^ (2:Int)) 3600 + 1/2 ∧
    0 < calculate_backoff_delay 2 2 3600 (1/2) ∧
    calculate_backoff_delay 2 2 3600 (1/2) ≤ 3600 + 2 / 2 ∧
    ((2:Rat) ^ (2:Int) ≤ 3600 →
      (2:Rat) ^ (2:Int) ≤ calculate_backoff_delay 2 2 3600 (1/2))) :=
  ⟨⟨by decide, by norm_num, by norm_num, by norm_num, by norm_num⟩,
    backoff_delay_bounds 2 2 3600 (1/2) (by decide) (by norm_num) (by norm_num)
      (by norm_num) (by norm_num)⟩

/-- Claim C6 (amended): `register_worker` inserts a fresh row with
`started_at = last_heartbeat = now` and `status = "active"` when no row
with that id exists; it is a plain insert, so a duplicate id errors
(see the counterexample). -/
theorem register_worker_inserts (now : Rat) (wid : String) (ws : List WorkerRow)
    (h : ∀ w ∈ ws, w.id ≠ wid) :
    register_worker now wid ws =
      Except.ok (ws ++ [{ id := wid, started_at := now, last_heartbeat := now,
                          status := "active" }]) := by
  unfold register_worker
  have hnone : ws.find? (fun w => w.id == wid) = none := by
    apply List.find?_eq_none.mpr
    intro w hw
    simpa using h w hw
  simp [hnone]

/-- Witness for C6: registering a fresh id on a store holding one other worker. -/
theorem register_worker_inserts_witness :
    (∀ w ∈ [regWorker], w.id ≠ "w2") ∧
    register_worker 1 "w2" [regWorker] =
      Except.ok ([regWorker] ++ [{ id := "w2", started_at := 1, last_heartbeat := 1,
                                   status := "active" }]) :=
  ⟨by decide, register_worker_inserts 1 "w2" [regWorker] (by decide)⟩

/-- Counterexample for C6 as stated: registering an id that already has a
worker row raises the UNIQUE-constraint integrity error instead of
succeeding as an upsert. -/
theorem register_worker_duplicate_cex :
    register_worker 1 "w1" [regWorker] =
      Except.error "UNIQUE constraint failed: workers.id" := by
  rfl

/-- Claim C7: `retry_dlq_job` returns true exactly when the id is present
and the row is dead; on success it resets the row to a pending, unlocked,
zero-attempts state scheduled at `now`; on failure the table is unchanged. -/
theorem retry_dlq_spec (now : Rat) (id : String) (st : Store) :
    ((retry_dlq_job now id st).1 = true ↔
      ∃ j, findJob st id = some j ∧ j.state = JState.dead) ∧
    (∀ j, findJob st id = some j → j.state = JState.dead →
      findJob (retry_dlq_job now id st).2 id = some (retryRow now j) ∧
      (retryRow now j).state = JState.pending ∧ (retryRow now j).attempts = 0 ∧
      (retryRow now j).run_at = now ∧ (retryRow now j).locked_by = none ∧
      (retryRow now j).locked_at = none ∧ (retryRow now j).updated_at = now) ∧
    ((retry_dlq_job now id st).1 = false → (retry_dlq_job now id st).2 = st) := by
  refine ⟨?_, ?_, ?_⟩
  · cases hfind : findJob st id with
    | none => simp [retry_dlq_job_of_none hfind, hfind]
    | some j =>
      by_cases hd : j.state = JState.dead
      · simp only [retry_dlq_job_of_some hfind, if_pos hd]
        simp [hfind, hd]
      · simp only [retry_dlq_job_of_some hfind, if_neg hd]
        simp [hfind, hd]
  · intro j hj hd
    rw [retry_dlq_job_of_some hj, if_pos hd]
    refine ⟨?_, rfl, rfl, rfl, rfl, rfl, rfl⟩
    simp [findJob_updateJob st id (retryRow now) (retryRow_id now), hj]
  · cases hfind : findJob st id with
    | none => simp [retry_dlq_job_of_none hfind]
    | some j =>
      by_cases hd : j.state = JState.dead
      · simp [retry_dlq_job_of_some hfind, if_pos hd]
      · simp [retry_dlq_job_of_some hfind, if_neg hd]

theorem claim_job_of_argmin_none {lt now : Rat} {w : String} {st : Store}
    (h : (st.filter (eligible lt now)).argmin claimKey = none) :
    claim_job lt now w st = (none, st) := by
  unfold claim_job
  rw [h]

theorem claim_job_of_argmin_some {lt now : Rat} {w : String} {st : Store} {j0 : Job}
    (h : (st.filter (eligible lt now)).argmin claimKey = some j0) :
    claim_job lt now w st =
      (some (lockRow w now j0), updateJob st j0.id (lockRow w now)) := by
  unfold claim_job
  rw [h]

/-- Claim C1: a job returned by `claim_job` is an eligible row of the table
(state pending or failed, ready, lock absent or expired), minimal under the
ordering `run_at ASC, priority DESC, created_at ASC`; on success the row is
relocked for the claiming worker, stamped `now` and moved to processing.
Without an eligible row `claim_job` returns none and leaves the table as is. -/
theorem claim_job_spec (lt now : Rat) (w : String) (st : Store) :
    (∀ jc, (claim_job lt now w st).1 = some jc →
      ∃ j0, j0 ∈ st ∧ eligible lt now j0 = true ∧
        (∀ k ∈ st, eligible lt now k = true → claimKey j0 ≤ claimKey k) ∧
        jc = lockRow w now j0 ∧ jc.locked_by = some w ∧ jc.locked_at = some now ∧
        jc.state = JState.processing ∧ jc.updated_at = now ∧
        (claim_job lt now w st).2 = updateJob st j0.id (lockRow w now)) ∧
    ((claim_job lt now w st).1 = none →
      (claim_job lt now w st).2 = st ∧ ∀ k ∈ st, eligible lt now k = false) := by
  constructor
  · intro jc hjc
    cases harg : (st.filter (eligible lt now)).argmin claimKey with
    | none =>
      rw [claim_job_of_argmin_none harg] at hjc
      exact absurd hjc (by simp)
    | some j0 =>
      rw [claim_job_of_argmin_some harg] at hjc ⊢
      simp only [Option.some.injEq] at hjc
      subst hjc
      have hmem : j0 ∈ st.filter (eligible lt now) :=
        List.argmin_mem (show j0 ∈ (st.filter (eligible lt now)).argmin claimKey by
          rw [harg]; rfl)
      refine ⟨j0, (List.mem_filter.mp hmem).1, (List.mem_filter.mp hmem).2,
        ?_, rfl, rfl, rfl, rfl, rfl, rfl⟩
      intro k hk hke
      exact List.le_of_mem_argmin (List.mem_filter.mpr ⟨hk, hke⟩)
        (show j0 ∈ (st.filter (eligible lt now)).argmin claimKey by rw [harg]; rfl)
  · intro hnone
    cases harg : (st.filter (eligible lt now)).argmin claimKey with
    | none =>
      rw [claim_job_of_argmin_none harg]
      refine ⟨rfl, ?_⟩
      have hfil : st.filter (eligible lt now) = [] := List.argmin_eq_none.mp harg
      intro k hk
      have := List.filter_eq_nil_iff.mp hfil k hk
      simpa using this
    | some j0 =>
      rw [claim_job_of_argmin_some harg] at hnone
      exact absurd hnone (by simp)

/-- Claim C4: `mark_failure` on a present id increments `attempts` by one,
then moves the row to the DLQ (state dead, lock cleared) when the new count
reaches `max_retries`, and otherwise to state failed with the lock cleared
and `run_at` pushed to `now` plus the backoff delay of the new count; a
missing id is a no-op. -/
theorem mark_failure_spec (now mb jit : Rat) (id : String) (c : Int)
    (out err : List Char) (d : Int) (st : Store) :
    (findJob st id = none → mark_failure now mb jit id c out err d st = st) ∧
    (∀ j, findJob st id = some j →
      findJob (mark_failure now mb jit id c out err d st) id =
        some (failureRow now mb jit c out err d j) ∧
      (failureRow now mb jit c out err d j).attempts = j.attempts + 1 ∧
      (j.attempts + 1 ≥ j.max_retries →
        (failureRow now mb jit c out err d j).state = JState.dead ∧
        (failureRow now mb jit c out err d j).locked_by = none ∧
        (failureRow now mb jit c out err d j).locked_at = none) ∧
      (j.attempts + 1 < j.max_retries →
        (failureRow now mb jit c out err d j).state = JState.failed ∧
        (failureRow now mb jit c out err d j).locked_by = none ∧
        (failureRow now mb jit c out err d j).locked_at = none ∧
        (failureRow now mb jit c out err d j).run_at =
          now + calculate_backoff_delay (j.attempts + 1) j.backoff_base mb jit)) := by
  refine ⟨fun h => mark_failure_of_none h, ?_⟩
  intro j hj
  refine ⟨?_, ?_, ?_, ?_⟩
  · rw [mark_failure_of_some hj,
      findJob_updateJob st id _ (failureRow_id now mb jit c out err d), hj]
    rfl
  · unfold failureRow
    simp only []
    split <;> rfl
  · intro hge
    unfold failureRow
    simp only []
    rw [if_pos hge]
    exact ⟨rfl, rfl, rfl⟩
  · intro hlt
    unfold failureRow
    simp only []
    rw [if_neg (not_le.mpr hlt)]
    exact ⟨rfl, rfl, rfl, rfl⟩

theorem findJob_mark_success {now : Rat} {id : String} {c : Int} {out err : List Char}
    {d : Int} {st : Store} {j : Job} (hj : findJob st id = some j) :
    findJob (mark_success now id c out err d st) id =
      some (successRow now c out err d j) := by
  rw [mark_success_of_some hj,
    findJob_updateJob st id _ (successRow_id now c out err d), hj]
  rfl

theorem findJob_mark_failure {now mb jit : Rat} {id : String} {c : Int}
    {out err : List Char} {d : Int} {st : Store} {j : Job}
    (hj : findJob st id = some j) :
    findJob (mark_failure now mb jit id c out err d st) id =
      some (failureRow now mb jit c out err d j) := by
  rw [mark_failure_of_some hj,
    findJob_updateJob st id _ (failureRow_id now mb jit c out err d), hj]
  rfl

theorem failureRow_stdout (now mb jit : Rat) (c : Int) (out err : List Char) (d : Int)
    (j : Job) : (failureRow now mb jit c out err d j).stdout = truncOut out := by
  unfold failureRow
  simp only []
  split <;> rfl

theorem failureRow_stderr (now mb jit : Rat) (c : Int) (out err : List Char) (d : Int)
    (j : Job) : (failureRow now mb jit c out err d j).stderr = truncOut err := by
  unfold failureRow
  simp only []
  split <;> rfl

/-- Claim C2 (amended): on a present id, `mark_success` and `mark_failure`
persist stdout and stderr truncated to exactly 8192 characters (Unicode
code points, as Python string slicing counts) whenever the input exceeds
8192 characters, and re-reading the job yields those same 8192 characters.
The truncation is not byte-exact: see the counterexample. -/
theorem truncation_8192_chars (now mb jit : Rat) (id : String) (c : Int)
    (out err : List Char) (d : Int) (st : Store) (j : Job)
    (hj : findJob st id = some j) (hout : 8192 < out.length)
    (herr : 8192 < err.length) :
    ((findJob (mark_success now id c out err d st) id).map Job.stdout =
        some (some (out.take 8192)) ∧
      (findJob (mark_success now id c out err d st) id).map Job.stderr =
        some (some (err.take 8192)) ∧
      (findJob (mark_failure now mb jit id c out err d st) id).map Job.stdout =
        some (some (out.take 8192)) ∧
      (findJob (mark_failure now mb jit id c out err d st) id).map Job.stderr =
        some (some (err.take 8192))) ∧
    (out.take 8192).length = 8192 ∧ (err.take 8192).length = 8192 := by
  have hoNe : out ≠ [] := by
    intro h
    rw [h] at hout
    simp at hout
  have heNe : err ≠ [] := by
    intro h
    rw [h] at herr
    simp at herr
  refine ⟨⟨?_, ?_, ?_, ?_⟩, ?_, ?_⟩
  · simp [findJob_mark_success hj, successRow, truncOut, hoNe]
  · simp [findJob_mark_success hj, successRow, truncOut, heNe]
  · simp [findJob_mark_failure hj, failureRow_stdout, truncOut, hoNe]
  · simp [findJob_mark_failure hj, failureRow_stderr, truncOut, heNe]
  · simp [List.length_take]
    omega
  · simp [List.length_take]
    omega

theorem longOut_length : longOut.length = 8193 := by
  rw [longOut, List.length_replicate]

theorem wideOut_length : wideOut.length = 2049 := by
  rw [wideOut, List.length_replicate]

/-- Witness for C2 at a store holding one processing job and outputs of
8193 characters. -/
theorem truncation_8192_chars_witness :
    (findJob [procJob] "j" = some procJob ∧ 8192 < longOut.length ∧
      8192 < longOut.length) ∧
    (((findJob (mark_success 1 "j" 0 longOut longOut 5 [procJob]) "j").map Job.stdout =
        some (some (longOut.take 8192)) ∧
      (findJob (mark_success 1 "j" 0 longOut longOut 5 [procJob]) "j").map Job.stderr =
        some (some (longOut.take 8192)) ∧
      (findJob (mark_failure 1 3600 1 "j" 0 longOut longOut 5 [procJob]) "j").map Job.stdout =
        some (some (longOut.take 8192)) ∧
      (findJob (mark_failure 1 3600 1 "j" 0 longOut longOut 5 [procJob]) "j").map Job.stderr =
        some (some (longOut.take 8192))) ∧
    (longOut.take 8192).length = 8192 ∧ (longOut.take 8192).length = 8192) :=
  ⟨⟨rfl, by rw [longOut_length]; norm_num, by rw [longOut_length]; norm_num⟩,
    truncation_8192_chars 1 3600 1 "j" 0 longOut longOut 5 [procJob] procJob rfl
      (by rw [longOut_length]; norm_num) (by rw [longOut_length]; norm_num)⟩

theorem wideOut_utf8Len : utf8Len wideOut = 8196 := by
  unfold utf8Len wideOut
  rw [List.map_replicate, List.sum_const_nat]
  decide

/-- Counterexample for C2 as stated: an input of 2049 four-byte characters
has 8196 > 8192 UTF-8 bytes, yet `mark_success` persists it whole (2049 is
below the 8192 character cut), so the stored stdout is 8196 bytes, not
exactly 8192. -/
theorem truncation_bytes_cex :
    8192 < utf8Len wideOut ∧
    (findJob (mark_success 1 "j" 0 wideOut wideOut 5 [procJob]) "j").map Job.stdout =
      some (some wideOut) ∧
    utf8Len wideOut ≠ 8192 := by
  refine ⟨by rw [wideOut_utf8Len]; norm_num, ?_, by rw [wideOut_utf8Len]; norm_num⟩
  have hfind : findJob [procJob] "j" = some procJob := rfl
  have hne : wideOut ≠ [] := by
    intro h
    have hlen := congrArg List.length h
    rw [wideOut_length] at hlen
    simp at hlen
  have htake : wideOut.take 8192 = wideOut :=
    List.take_of_length_le (by rw [wideOut_length]; norm_num)
  simp [findJob_mark_success hfind, successRow, truncOut, hne, htake]

/-- Claim C9: on a present id, an empty stdout or stderr is persisted as
NULL (Python's empty string is falsy), and a non-empty one as the stored,
possibly truncated, string - by `mark_success` and by `mark_failure`. -/
theorem empty_output_stored_null (now mb jit : Rat) (id : String) (c : Int)
    (out err : List Char) (d : Int) (st : Store) (j : Job)
    (hj : findJob st id = some j) :
    ((out = [] →
        (findJob (mark_success now id c out err d st) id).map Job.stdout = some none) ∧
      (out ≠ [] →
        (findJob (mark_success now id c out err d st) id).map Job.stdout =
          some (some (out.take 8192))) ∧
      (err = [] →
        (findJob (mark_success now id c out err d st) id).map Job.stderr = some none) ∧
      (err ≠ [] →
        (findJob (mark_success now id c out err d st) id).map Job.stderr =
          some (some (err.take 8192)))) ∧
    ((out = [] →
        (findJob (mark_failure now mb jit id c out err d st) id).map Job.stdout = some none) ∧
      (out ≠ [] →
        (findJob (mark_failure now mb jit id c out err d st) id).map Job.stdout =
          some (some (out.take 8192))) ∧
      (err = [] →
        (findJob (mark_failure now mb jit id c out err d st) id).map Job.stderr = some none) ∧
      (err ≠ [] →
        (findJob (mark_failure now mb jit id c out err d st) id).map Job.stderr =
          some (some (err.take 8192)))) := by
  refine ⟨⟨?_, ?_, ?_, ?_⟩, ?_, ?_, ?_, ?_⟩ <;> intro h <;>
    simp [findJob_mark_success hj, findJob_mark_failure hj, successRow,
      failureRow_stdout, failureRow_stderr, truncOut, h]

/-- Witness for C9 at a store holding one processing job, with an empty
stdout and a one-character stderr. -/
theorem empty_output_stored_null_witness :
    findJob [procJob] "j" = some procJob ∧
    (((([] : List Char) = [] →
        (findJob (mark_success 1 "j" 0 [] ['e'] 5 [procJob]) "j").map Job.stdout = some none) ∧
      (([] : List Char) ≠ [] →
        (findJob (mark_success 1 "j" 0 [] ['e'] 5 [procJob]) "j").map Job.stdout =
          some (some (([] : List Char).take 8192))) ∧
      (['e'] = ([] : List Char) →
        (findJob (mark_success 1 "j" 0 [] ['e'] 5 [procJob]) "j").map Job.stderr = some none) ∧
      (['e'] ≠ ([] : List Char) →
        (findJob (mark_success 1 "j" 0 [] ['e'] 5 [procJob]) "j").map Job.stderr =
          some (some (['e'].take 8192)))) ∧
    ((([] : List Char) = [] →
        (findJob (mark_failure 1 3600 1 "j" 0 [] ['e'] 5 [procJob]) "j").map Job.stdout = some none) ∧
      (([] : List Char) ≠ [] →
        (findJob (mark_failure 1 3600 1 "j" 0 [] ['e'] 5 [procJob]) "j").map Job.stdout =
          some (some (([] : List Char).take 8192))) ∧
      (['e'] = ([] : List Char) →
        (findJob (mark_failure 1 3600 1 "j" 0 [] ['e'] 5 [procJob]) "j").map Job.stderr = some none) ∧
      (['e'] ≠ ([] : List Char) →
        (findJob (mark_failure 1 3600 1 "j" 0 [] ['e'] 5 [procJob]) "j").map Job.stderr =
          some (some (['e'].take 8192))))) :=
  ⟨rfl, empty_output_stored_null 1 3600 1 "j" 0 [] ['e'] 5 [procJob] procJob rfl⟩

/-- Claim C10: `mark_success` performs no exit-code validation - any exit
code, zero or not, yields state completed with that `last_exit_code`
recorded; the data-model property "completed implies exit code 0" is
enforced only by the worker loop, which picks `mark_success` exactly when
the exit code is 0 and therefore preserves that property. -/
theorem mark_success_unvalidated_exit (now mb jit : Rat) :
    (∀ (st : Store) (id : String) (c : Int) (out err : List Char) (d : Int) (j : Job),
      findJob st id = some j →
      (findJob (mark_success now id c out err d st) id).map Job.state =
        some JState.completed ∧
      (findJob (mark_success now id c out err d st) id).map Job.last_exit_code =
        some (some c)) ∧
    (∀ (st : Store) (id : String) (r : ExecResult),
      (∀ j ∈ st, j.state = JState.completed → j.last_exit_code = some 0) →
      ∀ j ∈ process_job_record now mb jit id r st,
        j.state = JState.completed → j.last_exit_code = some 0) := by
  constructor
  · intro st id c out err d j hj
    constructor <;> simp [findJob_mark_success hj, successRow]
  · intro st id r hcomp j hj hstate
    unfold process_job_record at hj
    by_cases hz : r.exit_code = 0
    · rw [if_pos hz] at hj
      cases hf : findJob st id with
      | none =>
        rw [mark_success_of_none hf] at hj
        exact hcomp j hj hstate
      | some j0 =>
        rw [mark_success_of_some hf] at hj
        rcases mem_updateJob hj with ⟨j2, hj2, rfl⟩ | hj3
        · simp [successRow, hz]
        · exact hcomp j hj3 hstate
    · rw [if_neg hz] at hj
      cases hf : findJob st id with
      | none =>
        rw [mark_failure_of_none hf] at hj
        exact hcomp j hj hstate
      | some j0 =>
        rw [mark_failure_of_some hf] at hj
        rcases mem_updateJob hj with ⟨j2, hj2, rfl⟩ | hj3
        · exfalso
          revert hstate
          unfold failureRow
          simp only []
          split <;> simp
        · exact hcomp j hj3 hstate

theorem attemptsInv_lockRow {w : String} {now : Rat} {k : Job}
    (h : attemptsInv k) : attemptsInv (lockRow w now k) := by
  rcases h with ⟨h0, h1, _⟩
  exact ⟨h0, h1, by simp [lockRow]⟩

theorem attemptsInv_successRow {now : Rat} {c : Int} {out err : List Char} {d : Int}
    {k : Job} (h : attemptsInv k) : attemptsInv (successRow now c out err d k) := by
  rcases h with ⟨h0, h1, _⟩
  exact ⟨h0, h1, by simp [successRow]⟩

theorem attemptsInv_retryRow {now : Rat} {k : Job}
    (h : attemptsInv k) : attemptsInv (retryRow now k) := by
  rcases h with ⟨h0, h1, _⟩
  refine ⟨le_refl 0, ?_, by simp [retryRow]⟩
  show (0:Int) ≤ k.max_retries
  omega

theorem mem_updateJob_eq {k : Job} {st : Store} {id : String} {f : Job → Job}
    (hk : k ∈ updateJob st id f) :
    (∃ j, j ∈ st ∧ j.id = id ∧ k = f j) ∨ k ∈ st := by
  unfold updateJob at hk
  rcases List.mem_map.mp hk with ⟨j, hj, hkj⟩
  by_cases h : j.id = id
  · rw [if_pos h] at hkj
    exact Or.inl ⟨j, hj, h, hkj.symm⟩
  · rw [if_neg h] at hkj
    exact Or.inr (hkj ▸ hj)

theorem attemptsInv_failureRow {now mb jit : Rat} {c : Int} {out err : List Char}
    {d : Int} {k : Job} (h : attemptsInv k) (hlt : k.attempts < k.max_retries) :
    attemptsInv (failureRow now mb jit c out err d k) := by
  rcases h with ⟨h0, _, _⟩
  unfold failureRow attemptsInv
  simp only []
  split
  · rename_i hge
    dsimp only
    exact ⟨by omega, by omega, fun _ => by omega⟩
  · rename_i hge
    rw [not_le] at hge
    dsimp only
    exact ⟨by omega, by omega, fun hco => absurd hco (by decide)⟩

/-- Claim C8: all five job-mutating repository operations preserve the lock
invariant: a row is processing iff both `locked_by` and `locked_at` are
set, and every non-processing row has both cleared. -/
theorem lock_inv_preservation (now lt mb jit : Rat) (w nid cmd id : String)
    (prio cfgMr : Int) (cfgBb : Rat) (runAt : Option Rat) (tmo mrO : Option Int)
    (bbO : Option Rat) (c : Int) (out err : List Char) (d : Int) (st : Store)
    (hinv : storeLockInv st) :
    storeLockInv (create_job now cfgMr cfgBb nid cmd prio runAt tmo mrO bbO st).2 ∧
    storeLockInv (claim_job lt now w st).2 ∧
    storeLockInv (mark_success now id c out err d st) ∧
    storeLockInv (mark_failure now mb jit id c out err d st) ∧
    storeLockInv (retry_dlq_job now id st).2 := by
  refine ⟨?_, ?_, ?_, ?_, ?_⟩
  · unfold create_job
    split
    · exact hinv
    · intro k hk
      rcases List.mem_append.mp hk with hk2 | hk2
      · exact hinv k hk2
      · simp only [List.mem_singleton] at hk2
        subst hk2
        simp [lockInv]
  · cases harg : (st.filter (eligible lt now)).argmin claimKey with
    | none =>
      rw [claim_job_of_argmin_none harg]
      exact hinv
    | some j0 =>
      rw [claim_job_of_argmin_some harg]
      intro k hk
      rcases mem_updateJob hk with ⟨j2, _, rfl⟩ | hk2
      · exact lockInv_lockRow w now j2
      · exact hinv k hk2
  · cases hf : findJob st id with
    | none =>
      rw [mark_success_of_none hf]
      exact hinv
    | some j0 =>
      rw [mark_success_of_some hf]
      intro k hk
      rcases mem_updateJob hk with ⟨j2, _, rfl⟩ | hk2
      · exact lockInv_successRow now c out err d j2
      · exact hinv k hk2
  · cases hf : findJob st id with
    | none =>
      rw [mark_failure_of_none hf]
      exact hinv
    | some j0 =>
      rw [mark_failure_of_some hf]
      intro k hk
      rcases mem_updateJob hk with ⟨j2, _, rfl⟩ | hk2
      · exact lockInv_failureRow now mb jit c out err d j2
      · exact hinv k hk2
  · cases hf : findJob st id with
    | none =>
      rw [retry_dlq_job_of_none hf]
      exact hinv
    | some j0 =>
      rw [retry_dlq_job_of_some hf]
      by_cases hd : j0.state = JState.dead
      · rw [if_pos hd]
        intro k hk
        rcases mem_updateJob hk with ⟨j2, _, rfl⟩ | hk2
        · exact lockInv_retryRow now j2
        · exact hinv k hk2
      · rw [if_neg hd]
        exact hinv

/-- Witness for C8 at a two-row table (one pending job, one processing job
holding its lock) and the concrete operations of one worker. -/
theorem lock_inv_preservation_witness :
    storeLockInv [pendJob, procJob] ∧
    (storeLockInv (create_job 1 3 2 "q" "echo" 0 none none none none [pendJob, procJob]).2 ∧
    storeLockInv (claim_job 300 1 "w" [pendJob, procJob]).2 ∧
    storeLockInv (mark_success 1 "j" 0 ['o'] [] 5 [pendJob, procJob]) ∧
    storeLockInv (mark_failure 1 3600 1 "j" 0 ['o'] [] 5 [pendJob, procJob]) ∧
    storeLockInv (retry_dlq_job 1 "j" [pendJob, procJob]).2) :=
  ⟨by decide,
    lock_inv_preservation 1 300 3600 1 "w" "q" "echo" "j" 0 3 2 none none none none
      0 ['o'] [] 5 [pendJob, procJob] (by decide)⟩

/-- Claim C3 (amended): with the jobs created under a positive
`max_retries`, `create_job`, `claim_job`, `mark_success` and
`retry_dlq_job` preserve the attempts invariants unconditionally, and
`mark_failure` preserves them provided the rows bearing the targeted id
have `attempts < max_retries` (as any row actually claimed for processing
does); applied to a row already at the cap - e.g. a dead one - it would
push `attempts` past `max_retries` (see the counterexample). -/
theorem attempts_inv_preservation (now lt mb jit : Rat) (w nid cmd id : String)
    (prio cfgMr : Int) (cfgBb : Rat) (runAt : Option Rat) (tmo mrO : Option Int)
    (bbO : Option Rat) (c : Int) (out err : List Char) (d : Int) (st : Store)
    (hinv : storeAttemptsInv st) :
    (0 < mrO.getD cfgMr →
      storeAttemptsInv (create_job now cfgMr cfgBb nid cmd prio runAt tmo mrO bbO st).2) ∧
    storeAttemptsInv (claim_job lt now w st).2 ∧
    storeAttemptsInv (mark_success now id c out err d st) ∧
    ((∀ j ∈ st, j.id = id → j.attempts < j.max_retries) →
      storeAttemptsInv (mark_failure now mb jit id c out err d st)) ∧
    storeAttemptsInv (retry_dlq_job now id st).2 := by
  refine ⟨?_, ?_, ?_, ?_, ?_⟩
  · intro hcreate
    unfold create_job
    split
    · exact hinv
    · intro k hk
      rcases List.mem_append.mp hk with hk2 | hk2
      · exact hinv k hk2
      · simp only [List.mem_singleton] at hk2
        subst hk2
        unfold attemptsInv
        dsimp only
        exact ⟨by omega, by omega, fun hco => absurd hco (by decide)⟩
  · cases harg : (st.filter (eligible lt now)).argmin claimKey with
    | none =>
      rw [claim_job_of_argmin_none harg]
      exact hinv
    | some j0 =>
      rw [claim_job_of_argmin_some harg]
      intro k hk
      rcases mem_updateJob hk with ⟨j2, hj2, rfl⟩ | hk2
      · exact attemptsInv_lockRow (hinv j2 hj2)
      · exact hinv k hk2
  · cases hf : findJob st id with
    | none =>
      rw [mark_success_of_none hf]
      exact hinv
    | some j0 =>
      rw [mark_success_of_some hf]
      intro k hk
      rcases mem_updateJob hk with ⟨j2, hj2, rfl⟩ | hk2
      · exact attemptsInv_successRow (hinv j2 hj2)
      · exact hinv k hk2
  · intro hfail
    cases hf : findJob st id with
    | none =>
      rw [mark_failure_of_none hf]
      exact hinv
    | some j0 =>
      rw [mark_failure_of_some hf]
      intro k hk
      rcases mem_updateJob_eq hk with ⟨j2, hj2, hid, rfl⟩ | hk2
      · exact attemptsInv_failureRow (hinv j2 hj2) (hfail j2 hj2 hid)
      · exact hinv k hk2
  · cases hf : findJob st id with
    | none =>
      rw [retry_dlq_job_of_none hf]
      exact hinv
    | some j0 =>
      rw [retry_dlq_job_of_some hf]
      by_cases hd : j0.state = JState.dead
      · rw [if_pos hd]
        intro k hk
        rcases mem_updateJob hk with ⟨j2, hj2, rfl⟩ | hk2
        · exact attemptsInv_retryRow (hinv j2 hj2)
        · exact hinv k hk2
      · rw [if_neg hd]
        exact hinv

/-- Witness for C3 at a three-row table holding a pending, a processing and
a dead job, targeting the dead one so the DLQ-retry conjunct fires on a
genuine dead-to-pending reset. -/
theorem attempts_inv_preservation_witness :
    storeAttemptsInv [pendJob, procJob, deadJob] ∧
    ((0 < (none : Option Int).getD 3 →
      storeAttemptsInv
        (create_job 1 3 2 "q" "echo" 0 none none none none [pendJob, procJob, deadJob]).2) ∧
    storeAttemptsInv (claim_job 300 1 "w" [pendJob, procJob, deadJob]).2 ∧
    storeAttemptsInv (mark_success 1 "d" 0 ['o'] [] 5 [pendJob, procJob, deadJob]) ∧
    ((∀ j ∈ [pendJob, procJob, deadJob], j.id = "d" → j.attempts < j.max_retries) →
      storeAttemptsInv (mark_failure 1 3600 1 "d" 0 ['o'] [] 5 [pendJob, procJob, deadJob])) ∧
    storeAttemptsInv (retry_dlq_job 1 "d" [pendJob, procJob, deadJob]).2) :=
  ⟨by decide,
    attempts_inv_preservation 1 300 3600 1 "w" "q" "echo" "d" 0 3 2 none none none
      none 0 ['o'] [] 5 [pendJob, procJob, deadJob] (by decide)⟩

/-- Counterexample for C3 as stated: a dead job at `attempts = max_retries
= 1` satisfies the invariants, yet `mark_failure` on it yields a dead row
with `attempts = 2 > max_retries = 1`, breaking them. -/
theorem attempts_inv_cex :
    storeAttemptsInv [deadJob] ∧
    ¬ storeAttemptsInv (mark_failure 1 3600 1 "d" 1 [] [] 5 [deadJob]) := by
  constructor
  · decide
  · decide
